import Mathlib

/-!
Verification development for the CryptoV6 repository: a FastAPI service
(`src/main.py`, `src/database.py`, `src/routers/{market_data,news,sentiment}.py`)
exposing market-data, news and sentiment endpoints backed by MongoDB and a
pre-trained 3-class sentiment model.

Shallow embedding conventions:
* MongoDB documents are association lists `Doc := List (String × Val)` in
  insertion order; Python `dict` assignment, lookup, `in` and `del` are the
  `setField`, `getField`, `hasField`, `delField` operations below.
* Each collection is the list of its documents in insertion order.  The store
  engine itself (connection handling, `_id` generation) is an external
  collaborator and is out of scope; `find(..., sort=..., ).limit(...)` is
  modelled as filter + sort-by-key-descending + take, `find_one(sort=...)` as
  a fold picking the maximal key.
* `datetime.utcnow()` results are passed in as explicit `now : Int`
  parameters (one per call site; the per-item clock reads inside
  `store_news` are modelled with a single stamp value).  ISO-8601 timestamp
  strings compare exactly like the instants they denote, so `isoformat()`
  values are modelled directly as `Val.vtime`.
* Outbound HTTP is modelled by an `attempts : Nat → TransportResult`
  oracle giving the transport outcome of the n-th request the code would
  make; `requests` exceptions and non-2xx statuses (`raise_for_status`)
  both surface as `TransportResult.failure` carrying `str(e)`.
* The pre-trained FinBERT model plus `torch.nn.functional.softmax` are an
  external capability: `analyze_text_sentiment` takes the normalized
  `[negative, neutral, positive]` probability triple the model produces for
  the text.
* Python string routines used by the code (`split(",")`, `strip()`,
  `upper()`, `lower()`, `in`, slicing) are modelled on the character lists
  of the strings (ASCII-level case mapping; Unicode corner cases of
  `strip`/`upper` are out of scope).
-/

/-! ## Python string primitives -/

def chSplit (sep : Char) : List Char → List (List Char)
  | [] => [[]]
  | c :: rest =>
    let r := chSplit sep rest
    if c = sep then [] :: r
    else match r with
      | [] => [[c]]
      | g :: gs => (c :: g) :: gs

/-- Python `s.split(",")` (always returns at least one piece). -/
def pySplitComma (s : String) : List String :=
  (chSplit ',' s.data).map (fun cs => String.mk cs)

def isSpc (c : Char) : Bool := c == ' ' || c == '\t' || c == '\n' || c == '\r'

/-- Python `s.strip()`. -/
def pyStrip (s : String) : String :=
  String.mk (((s.data.dropWhile isSpc).reverse.dropWhile isSpc).reverse)

/-- Python `s.upper()`. -/
def pyUpper (s : String) : String := String.mk (s.data.map Char.toUpper)

/-- Python `s.lower()`. -/
def pyLower (s : String) : String := String.mk (s.data.map Char.toLower)

/-- Python `s[:n]` on strings (slice of code points). -/
def pySlice (s : String) (n : Nat) : String := String.mk (s.data.take n)

def chPre : List Char → List Char → Bool
  | [], _ => true
  | _ :: _, [] => false
  | a :: as, b :: bs => a == b && chPre as bs

def chSub (needle : List Char) : List Char → Bool
  | [] => needle.isEmpty
  | c :: rest => chPre needle (c :: rest) || chSub needle rest

/-- Python `needle in hay` on strings (substring test). -/
def strContains (hay needle : String) : Bool := chSub needle.data hay.data

/-! ## JSON / BSON values and documents -/

inductive Val where
  | vstr : String → Val
  | vnum : ℚ → Val
  | vtime : Int → Val
  | vnull : Val
  | vlist : List Val → Val
  | vdoc : List (String × Val) → Val

abbrev Doc := List (String × Val)

/-- Python `d[k]` / `d.get(k)` lookup (dicts have unique keys; first match). -/
def getField (d : Doc) (k : String) : Option Val :=
  match d with
  | [] => none
  | (k', v) :: rest => if k' = k then some v else getField rest k

/-- Python `k in d`. -/
def hasField (d : Doc) (k : String) : Bool := (getField d k).isSome

/-- Python `d[k] = v`: replace in place if the key exists, else append. -/
def setField (d : Doc) (k : String) (v : Val) : Doc :=
  match d with
  | [] => [(k, v)]
  | (k', v') :: rest => if k' = k then (k, v) :: rest else (k', v') :: setField rest k v

/-- Python `del d[k]` (removes the unique entry with that key). -/
def delField (d : Doc) (k : String) : Doc :=
  match d with
  | [] => []
  | (k', v) :: rest => if k' = k then rest else (k', v) :: delField rest k

/-- Index into a JSON value as a mapping: `v[k]` / `v.get(k)`; `none` is the
`KeyError` / `TypeError` path. -/
def vIndex (v : Val) (k : String) : Option Val :=
  match v with
  | .vdoc d => getField d k
  | _ => none

/-! ## Sort keys (MongoDB descending sorts of `database.py`) -/

def keyLEb : Option Int → Option Int → Bool
  | none, _ => true
  | some _, none => false
  | some x, some y => x ≤ y

def keyLtb : Option Int → Option Int → Bool
  | _, none => false
  | none, some _ => true
  | some x, some y => x < y

/-- `timestamp` sort key of a market-data document (missing/non-time sorts lowest). -/
def tsKey (d : Doc) : Option Int :=
  match getField d "timestamp" with
  | some (.vtime t) => some t
  | _ => none

/-- `published_at` sort key of a news document. -/
def pubKey (d : Doc) : Option Int :=
  match getField d "published_at" with
  | some (.vtime t) => some t
  | _ => none

/-- Descending-`published_at` order used by `get_recent_news`. -/
def newsDesc (a b : Doc) : Prop := keyLEb (pubKey b) (pubKey a) = true

instance : DecidableRel newsDesc := fun _ _ => inferInstanceAs (Decidable (_ = true))

/-! ## database.py -/

/-- `store_market_data(data)`: stamps `data["timestamp"] = datetime.utcnow()`
(unconditionally) and inserts.  Returns (new collection, inserted record —
the same mutated dict the caller passed in). -/
def store_market_data (coll : List Doc) (data : Doc) (now : Int) : List Doc × Doc :=
  let stamped := setField data "timestamp" (.vtime now)
  (coll ++ [stamped], stamped)

def pickLatest (best d : Doc) : Doc :=
  if keyLEb (tsKey best) (tsKey d) then d else best

/-- `get_latest_market_data()`: `find_one(sort=[("timestamp", -1)])` — the
document with the maximal `timestamp` (ties broken toward the most recently
inserted; MongoDB leaves tie order unspecified). -/
def get_latest_market_data (coll : List Doc) : List Doc × Option Doc :=
  (coll,
    match coll with
    | [] => none
    | x :: xs => some (xs.foldl pickLatest x))

/-- `store_news(news_items)`: stamps `item["stored_at"] = datetime.utcnow()`
on every item of the list (mutating the caller's dicts), then `insert_many`
when the list is non-empty.  Returns (new collection, the stamped items). -/
def store_news (coll : List Doc) (news_items : List Doc) (now : Int) : List Doc × List Doc :=
  let stamped := news_items.map (fun item => setField item "stored_at" (.vtime now))
  if news_items.length > 0 then (coll ++ stamped, stamped) else (coll, stamped)

/-- `get_recent_news(limit)`: `find(sort=[("published_at", -1)]).limit(limit)`. -/
def get_recent_news (coll : List Doc) (limit : Nat) : List Doc × List Doc :=
  (coll, (List.insertionSort newsDesc coll).take limit)

/-- A document of the `sentiment` collection.  `store_sentiment` writes only
coin/text/score/timestamp, so `sentiment_label` is `none` ("key absent") on
every record this code creates; `sentiment_score` is optional because the
history reader defends against its absence with `.get("sentiment_score", 0)`.
(The `_id` bookkeeping of the store engine is out of scope.) -/
structure SRecord where
  coin : String
  text : String
  sentiment_score : Option ℚ
  sentiment_label : Option String
  timestamp : Int
deriving DecidableEq

/-- `store_sentiment(coin, text, score)`. -/
def store_sentiment (coll : List SRecord) (coin text : String) (score : ℚ) (now : Int) :
    List SRecord × SRecord :=
  let document : SRecord := ⟨coin, text, some score, none, now⟩
  (coll ++ [document], document)

/-- Descending-`timestamp` order on sentiment records. -/
def sentDesc (a b : SRecord) : Prop := b.timestamp ≤ a.timestamp

instance : DecidableRel sentDesc := fun a b => inferInstanceAs (Decidable (b.timestamp ≤ a.timestamp))

instance : IsTotal SRecord sentDesc := ⟨fun a b => le_total b.timestamp a.timestamp⟩

instance : IsTrans SRecord sentDesc := ⟨fun _ _ _ hab hbc => le_trans hbc hab⟩

/-- `get_sentiment_history(coin, limit)`: filter by coin, sort by timestamp
descending, take `limit`. -/
def get_sentiment_history (coll : List SRecord) (coin : String) (limit : Nat) :
    List SRecord × List SRecord :=
  (coll, (List.insertionSort sentDesc (coll.filter (fun r => r.coin == coin))).take limit)

/-- A document of the `trades` collection (shape fixed by `record_trade`). -/
structure Trade where
  user_id : String
  coin : String
  action : String
  amount : ℚ
  price : ℚ
  timestamp : Int
deriving DecidableEq

/-- `record_trade(user_id, coin, action, amount, price)`. -/
def record_trade (coll : List Trade) (user_id coin action : String) (amount price : ℚ)
    (now : Int) : List Trade × Trade :=
  let trade : Trade := ⟨user_id, coin, action, amount, price, now⟩
  (coll ++ [trade], trade)

/-- Descending-`timestamp` order on trade records. -/
def tradeDesc (a b : Trade) : Prop := b.timestamp ≤ a.timestamp

instance : DecidableRel tradeDesc := fun a b => inferInstanceAs (Decidable (b.timestamp ≤ a.timestamp))

instance : IsTotal Trade tradeDesc := ⟨fun a b => le_total b.timestamp a.timestamp⟩

instance : IsTrans Trade tradeDesc := ⟨fun _ _ _ hab hbc => le_trans hbc hab⟩

/-- `get_trade_history(user_id=None, limit=20)`: the filter is added only when
`user_id` is truthy (`if user_id:`), i.e. present AND non-empty. -/
def get_trade_history (coll : List Trade) (user_id : Option String) (limit : Nat) :
    List Trade × List Trade :=
  let query : Option String :=
    match user_id with
    | some uid => if uid ≠ "" then some uid else none
    | none => none
  let filtered :=
    match query with
    | some uid => coll.filter (fun t => t.user_id == uid)
    | none => coll
  (coll, (List.insertionSort tradeDesc filtered).take limit)

/-! ## Provider client (`fetch_from_coinmarketcap`, identical copies in
`routers/market_data.py` and `routers/news.py`) -/

/-- Outcome of one outbound HTTP request: `failure msg` is any
`requests.exceptions.RequestException` — connection error, or the
`HTTPError` that `raise_for_status()` raises on a non-2xx status — with
`msg = str(e)`; `success body` is a 2xx response whose JSON body parsed to
the (top-level object) document `body`. -/
inductive TransportResult where
  | failure : String → TransportResult
  | success : Doc → TransportResult

structure HTTPException where
  status_code : Nat
  detail : String
deriving DecidableEq

/-- `fetch_from_coinmarketcap(endpoint, params)`: performs a single GET
(the outcome of the n-th request the code would issue is `attempts n`; the
body only ever consumes `attempts 0`) and maps any `RequestException` to
`HTTPException(500, "Error fetching data from CoinMarketCap: " + str(e))`.
URL and API-key header construction are external I/O details. -/
def fetch_from_coinmarketcap (endpoint : String) (params : Doc)
    (attempts : Nat → TransportResult) : Except HTTPException Doc :=
  match attempts 0 with
  | .success body => .ok body
  | .failure e => .error ⟨500, "Error fetching data from CoinMarketCap: " ++ e⟩

/-! ## routers/market_data.py -/

/-- Field extraction for one coin of the `/market-data` reshape
(`coin_data["name"]`, ..., `coin_data["quote"]["USD"]["price"]`, ...);
`none` is the `KeyError`/`TypeError` path (unhandled → 500). -/
def extractCoin (cd : Val) : Option Doc := do
  let name ← vIndex cd "name"
  let symbol ← vIndex cd "symbol"
  let usd ← (vIndex cd "quote").bind (fun q => vIndex q "USD")
  let price ← vIndex usd "price"
  let p1h ← vIndex usd "percent_change_1h"
  let p24h ← vIndex usd "percent_change_24h"
  let p7d ← vIndex usd "percent_change_7d"
  let mcap ← vIndex usd "market_cap"
  let vol ← vIndex usd "volume_24h"
  pure [("name", name), ("symbol", symbol), ("price", price),
        ("percent_change_1h", p1h), ("percent_change_24h", p24h),
        ("percent_change_7d", p7d), ("market_cap", mcap), ("volume_24h", vol)]

/-- The `result = {"data": {}, "timestamp": None}` reshape of `/market-data`:
fills `result["data"][symbol]` for every entry of `data["data"]`. -/
def reshapeMarket (data : Doc) : Except String Doc :=
  match getField data "data" with
  | none => .ok [("data", .vdoc []), ("timestamp", .vnull)]
  | some v =>
    match v with
    | .vdoc entries =>
      match entries.mapM (fun p => (extractCoin p.2).map (fun e => (p.1, Val.vdoc e))) with
      | some extracted => .ok [("data", .vdoc extracted), ("timestamp", .vnull)]
      | none => .error "KeyError while reshaping market data"
    | _ => .error "TypeError: data field is not an object"

/-- `GET /market-data`: returns (response-or-error, market collection after
the call, whether the provider was invoked). -/
def get_market_data (symbols : String) (limit : Int) (use_cache : Bool)
    (attempts : Nat → TransportResult) (now : Int) (store : List Doc) :
    Except HTTPException Doc × List Doc × Bool :=
  let cachedBranch : Option Doc :=
    if use_cache then
      match (get_latest_market_data store).2 with
      | some cached_data =>
        if cached_data.isEmpty then none
        else some (if hasField cached_data "_id" then delField cached_data "_id" else cached_data)
      | none => none
    else none
  match cachedBranch with
  | some resp => (.ok resp, store, false)
  | none =>
    let symbol_list := (pySplitComma symbols).map pyStrip
    let params : Doc :=
      [("symbol", .vstr (String.intercalate "," symbol_list)),
       ("limit", .vnum limit), ("convert", .vstr "USD")]
    match fetch_from_coinmarketcap "cryptocurrency/quotes/latest" params attempts with
    | .error e => (.error e, store, true)
    | .ok data =>
      match reshapeMarket data with
      | .error msg => (.error ⟨500, msg⟩, store, true)
      | .ok result =>
        let (store2, stored) := store_market_data store result now
        (.ok stored, store2, true)

/-! ## routers/news.py -/

/-- `["BTC","ETH","XRP","LTC","ADA"]` — the default coin list of the news
fallback. -/
def default_coins : List String := ["BTC", "ETH", "XRP", "LTC", "ADA"]

/-- `[coin.strip().upper() for coin in coins.split(",")]`. -/
def parseCoinList (cs : String) : List String :=
  (pySplitComma cs).map (fun c => pyUpper (pyStrip c))

/-- The `coins_to_include` list of the news fallback: the parsed request list
when `coins` is truthy, else the five defaults. -/
def coinsToInclude (coins : Option String) : List String :=
  match coins with
  | some cs => if cs ≠ "" then parseCoinList cs else default_coins
  | none => default_coins

/-- One synthetic article of the news fallback (`published_at` is
`(current_time - timedelta(hours=i)).isoformat()`, modelled as the instant
`now - i`). -/
def simulated_news_item (coin : String) (now : Int) (i : Nat) : Doc :=
  [("title", .vstr (coin ++ " Shows Promising Movement in Today's Trading")),
   ("url", .vstr ("https://example.com/crypto-news/" ++ pyLower coin ++ "-update")),
   ("description", .vstr ("The cryptocurrency " ++ coin ++
      " has shown significant movement today with traders taking interest in its latest developments.")),
   ("published_at", .vtime (now - i)),
   ("source", .vstr "CryptoNewsSimulator"),
   ("related_coins", .vlist [.vdoc [("symbol", .vstr coin)]])]

/-- The `simulated_news` list built by the `except` branch of
`/crypto-news`: `limit` articles, coin `i % len(coins_to_include)` for the
i-th. -/
def fallback_news (coins : Option String) (limit : Nat) (now : Int) : List Doc :=
  let cs := coinsToInclude coins
  (List.range limit).map (fun i => simulated_news_item (cs[i % cs.length]!) now i)

/-- Python `coin in value` where `value` came out of a JSON field: substring
test on strings, `TypeError` otherwise. -/
def pyInStr (needle : String) (v : Val) : Except String Bool :=
  match v with
  | .vstr s => .ok (strContains s needle)
  | _ => .error "TypeError: argument of type is not iterable"

/-- `any(coin == related_coin.get("symbol") for related_coin in l)`
(equality with a non-string or missing symbol is simply `False`;
a non-dict element raises `AttributeError`). -/
def anyRelated (coin : String) : List Val → Except String Bool
  | [] => .ok false
  | rc :: rest =>
    match rc with
    | .vdoc d =>
      match getField d "symbol" with
      | some (.vstr s) => if s = coin then .ok true else anyRelated coin rest
      | _ => anyRelated coin rest
    | _ => .error "AttributeError"

/-- The per-item predicate of the cache-branch coin filter of `/crypto-news`:
`any(coin in article.get("title", "") or coin in article.get("description", "")
for coin in coin_list)`. -/
def cacheItemMatch (article : Doc) : List String → Except String Bool
  | [] => .ok false
  | coin :: rest => do
    let t ← pyInStr coin ((getField article "title").getD (.vstr ""))
    if t then .ok true
    else
      let dsc ← pyInStr coin ((getField article "description").getD (.vstr ""))
      if dsc then .ok true else cacheItemMatch article rest

/-- The cache-branch list comprehension keeping matching articles. -/
def cacheFilter (coin_list : List String) : List Doc → Except String (List Doc)
  | [] => .ok []
  | article :: rest => do
    let m ← cacheItemMatch article coin_list
    let r ← cacheFilter coin_list rest
    .ok (if m then article :: r else r)

/-- The per-item predicate of the fetch-branch coin filter (adds the
related-coin symbol check). -/
def newsItemMatch (item : Doc) : List String → Except String Bool
  | [] => .ok false
  | coin :: rest => do
    let t ← pyInStr coin ((getField item "title").getD (.vstr ""))
    if t then .ok true
    else
      let dsc ← pyInStr coin ((getField item "description").getD (.vstr ""))
      if dsc then .ok true
      else
        let r ← (match (getField item "related_coins").getD (.vlist []) with
                 | .vlist l => anyRelated coin l
                 | _ => Except.error "TypeError: not iterable")
        if r then .ok true else newsItemMatch item rest

/-- The fetch-branch list comprehension keeping matching news items. -/
def newsFilter (coin_list : List String) : List Doc → Except String (List Doc)
  | [] => .ok []
  | item :: rest => do
    let m ← newsItemMatch item coin_list
    let r ← newsFilter coin_list rest
    .ok (if m then item :: r else r)

/-- `news_item = {"title": item.get("title"), ...}` for one provider item
(`none` is the `AttributeError` on a non-dict item). -/
def buildNewsItem (v : Val) : Option Doc :=
  match v with
  | .vdoc item =>
    some [("title", (getField item "title").getD .vnull),
          ("url", (getField item "url").getD .vnull),
          ("description", (getField item "description").getD .vnull),
          ("published_at", (getField item "published_at").getD .vnull),
          ("source", (getField item "source").getD .vnull),
          ("related_coins", (getField item "coins").getD (.vlist []))]
  | _ => none

/-- The body of the `try:` block of `/crypto-news` (everything it raises —
provider `HTTPException`, the explicit `HTTPException` when `"data"` is
missing, `AttributeError`/`TypeError` during reshaping or filtering — is
caught by the `except Exception` and triggers the synthetic fallback). -/
def newsTryBody (coins : Option String) (limit : Nat)
    (attempts : Nat → TransportResult) : Except String (List Doc) :=
  match fetch_from_coinmarketcap "cryptocurrency/news" [("limit", .vnum (limit + 10))] attempts with
  | .error e => .error e.detail
  | .ok data =>
    match getField data "data" with
    | none => .error "Failed to fetch news data"
    | some v =>
      match v with
      | .vlist items =>
        match items.mapM buildNewsItem with
        | none => .error "AttributeError"
        | some news_items =>
          let afterFilter : Except String (List Doc) :=
            match coins with
            | some cs =>
              if cs ≠ "" then newsFilter (parseCoinList cs) news_items
              else .ok news_items
            | none => .ok news_items
          match afterFilter with
          | .error m => .error m
          | .ok filtered => .ok (filtered.take limit)
      | _ => .error "TypeError: not iterable"

structure NewsResponse where
  news : List Doc

/-- `GET /crypto-news`: returns (response-or-error, news collection after the
call).  Note `store_news` mutates the very dicts the handler returns, so the
response articles carry the `stored_at` stamp. -/
def get_crypto_news (coins : Option String) (limit : Nat) (use_cache : Bool)
    (attempts : Nat → TransportResult) (now nowStore : Int) (store : List Doc) :
    Except HTTPException NewsResponse × List Doc :=
  let cachedTry : Option (Except HTTPException NewsResponse) :=
    if use_cache then
      let cached_news := (get_recent_news store limit).2
      if cached_news.isEmpty then none
      else
        let cleaned := cached_news.map
          (fun a => if hasField a "_id" then delField a "_id" else a)
        match coins with
        | some cs =>
          if cs ≠ "" then
            match cacheFilter (parseCoinList cs) cleaned with
            | .ok filtered => some (.ok ⟨filtered⟩)
            | .error _ => some (.error ⟨500, "Internal Server Error"⟩)
          else some (.ok ⟨cleaned⟩)
        | none => some (.ok ⟨cleaned⟩)
    else none
  match cachedTry with
  | some r => (r, store)
  | none =>
    match newsTryBody coins limit attempts with
    | .ok news_items =>
      let (store2, stamped) := store_news store news_items nowStore
      (.ok ⟨stamped⟩, store2)
    | .error _ =>
      let simulated_news := fallback_news coins limit now
      let (store2, stamped) := store_news store simulated_news nowStore
      (.ok ⟨stamped⟩, store2)

/-! ## routers/sentiment.py -/

structure SentimentOutput where
  sentiment_score : ℚ
  sentiment_label : String
  raw_negative : ℚ
  raw_neutral : ℚ
  raw_positive : ℚ
deriving DecidableEq

/-- `analyze_text_sentiment(text)` given the `[negative, neutral, positive]`
softmax distribution the model produced for the text:
`sentiment_score = scores[2] - scores[0]`, label by the fixed thresholds. -/
def analyze_text_sentiment (scores : ℚ × ℚ × ℚ) : SentimentOutput :=
  let sentiment_score := scores.2.2 - scores.1
  let sentiment_label :=
    if sentiment_score > 0.2 then "positive"
    else if sentiment_score < -0.2 then "negative"
    else "neutral"
  ⟨sentiment_score, sentiment_label, scores.1, scores.2.1, scores.2.2⟩

/-- The label backfill of `GET /coin-sentiment/{coin}`: a record lacking
`sentiment_label` gets one recomputed from `item.get("sentiment_score", 0)`
by the fixed thresholds; a record that has one is left alone. -/
def backfillLabel (item : SRecord) : SRecord :=
  match item.sentiment_label with
  | some _ => item
  | none =>
    let score := item.sentiment_score.getD 0
    let label :=
      if score > 0.2 then "positive"
      else if score < -0.2 then "negative"
      else "neutral"
    { item with sentiment_label := some label }

/-- `GET /coin-sentiment/{coin}`: returns (upper-cased coin, formatted
history).  (The `_id` stripping is store-engine bookkeeping not carried by
`SRecord`.) -/
def get_coin_sentiment (scoll : List SRecord) (coin : String) (days : Nat) :
    String × List SRecord :=
  let coinU := pyUpper coin
  let sentiment_history := (get_sentiment_history scoll coinU (days * 10)).2
  if sentiment_history = [] then (coinU, [])
  else (coinU, sentiment_history.map backfillLabel)

structure ScoredArticle where
  title : Option Val
  url : Option Val
  published_at : Option Val
  sentiment_score : ℚ
  sentiment_label : String

/-- One per-coin entry of the `/analyze-news-sentiment` response dict.  The
success shape has `articles`/`average_sentiment`/`overall_sentiment` and no
`error`; the per-coin failure shape has `error` and empty `articles`. -/
structure CoinResult where
  articles : List ScoredArticle
  average_sentiment : Option ℚ
  overall_sentiment : Option String
  error : Option String

/-- Python `f"{v}"` for a JSON value (string formatting of non-string
scalars is abstracted). -/
def pyFStr (v : Val) : String :=
  match v with
  | .vstr s => s
  | .vnull => "None"
  | _ => ""

/-- `article.get("description", "")[:100]` — slicing a non-sliceable value
raises `TypeError`. -/
def descSlice100 (v : Val) : Except String Val :=
  match v with
  | .vstr s => .ok (.vstr (pySlice s 100))
  | .vlist l => .ok (.vlist (l.take 100))
  | _ => .error "TypeError: unsubscriptable"

/-- `text = f"{article.get('title', '')}. {article.get('description', '')[:100]}"`. -/
def articleTextD (article : Doc) : Except String String := do
  let dsc ← descSlice100 ((getField article "description").getD (.vstr ""))
  .ok (pyFStr ((getField article "title").getD (.vstr "")) ++ ". " ++ pyFStr dsc)

/-- The article loop of one coin of `/analyze-news-sentiment`: scores each
article, persisting a sentiment record per article as it goes; an exception
mid-loop aborts the loop (keeping the records already persisted). -/
def processArticles (modelOut : String → ℚ × ℚ × ℚ) (coin : String) (nowS : Int) :
    List Val → List ScoredArticle → List SRecord →
    Except String (List ScoredArticle) × List SRecord
  | [], acc, st => (.ok acc, st)
  | a :: rest, acc, st =>
    match a with
    | .vdoc article =>
      match articleTextD article with
      | .error e => (.error e, st)
      | .ok text =>
        let r := analyze_text_sentiment (modelOut text)
        let st2 := (store_sentiment st coin text r.sentiment_score nowS).1
        let entry : ScoredArticle :=
          ⟨getField article "title", getField article "url",
           getField article "published_at", r.sentiment_score, r.sentiment_label⟩
        processArticles modelOut coin nowS rest (acc ++ [entry]) st2
    | _ => (.error "AttributeError", st)

/-- The per-coin `try:` body of `/analyze-news-sentiment`.  `fetch coin limit`
is the outcome of `requests.get("http://localhost:8000/api/crypto-news?...",
timeout=10)` followed by `.json()` — `.error msg` is any exception raised
there (unreachable handler, timeout, invalid JSON). -/
def processCoin (fetch : String → Nat → Except String Val)
    (modelOut : String → ℚ × ℚ × ℚ) (coin : String) (limit : Nat) (nowS : Int)
    (sstore : List SRecord) : CoinResult × List SRecord :=
  match fetch coin limit with
  | .error e => (⟨[], none, none, some ("Failed to analyze news sentiment: " ++ e)⟩, sstore)
  | .ok body =>
    match body with
    | .vdoc news_data =>
      match (getField news_data "news").getD (.vlist []) with
      | .vlist articles =>
        match processArticles modelOut coin nowS articles [] sstore with
        | (.error e, st) =>
          (⟨[], none, none, some ("Failed to analyze news sentiment: " ++ e)⟩, st)
        | (.ok coin_results, st) =>
          if coin_results.length > 0 then
            let avg_sentiment :=
              (coin_results.map (fun it => it.sentiment_score)).sum / (coin_results.length : ℚ)
            (⟨coin_results, some avg_sentiment,
              some (if avg_sentiment > 0.2 then "positive"
                    else if avg_sentiment < -0.2 then "negative"
                    else "neutral"), none⟩, st)
          else (⟨[], some 0, some "neutral", none⟩, st)
      | _ =>
        (⟨[], none, none, some ("Failed to analyze news sentiment: TypeError")⟩, sstore)
    | _ =>
      (⟨[], none, none, some ("Failed to analyze news sentiment: AttributeError")⟩, sstore)

/-- Python dict assignment `results[coin] = r` on an insertion-ordered dict. -/
def dictInsert {α : Type} (d : List (String × α)) (k : String) (v : α) : List (String × α) :=
  match d with
  | [] => [(k, v)]
  | (k', v') :: rest => if k' = k then (k, v) :: rest else (k', v') :: dictInsert rest k v

def dictLookup {α : Type} (d : List (String × α)) (k : String) : Option α :=
  match d with
  | [] => none
  | (k', v) :: rest => if k' = k then some v else dictLookup rest k

/-- `GET /analyze-news-sentiment`: loops the parsed coin list, building the
per-coin results dict and threading the sentiment store through the per-coin
bodies. -/
def analyze_news_sentiment (fetch : String → Nat → Except String Val)
    (modelOut : String → ℚ × ℚ × ℚ) (coins : String) (limit : Nat) (nowS : Int)
    (sstore : List SRecord) : List (String × CoinResult) × List SRecord :=
  let coin_list := parseCoinList coins
  coin_list.foldl
    (fun acc coin =>
      let next := processCoin fetch modelOut coin limit nowS acc.2
      (dictInsert acc.1 coin next.1, next.2))
    ([], sstore)

/-! ## Helper lemmas about document operations -/

lemma getField_setField_self (d : Doc) (k : String) (v : Val) :
    getField (setField d k v) k = some v := by
  induction d with
  | nil => simp [setField, getField]
  | cons p rest ih =>
    by_cases h : p.1 = k
    · simp [setField, getField, h]
    · simp [setField, getField, h, ih]

lemma getField_setField_ne (d : Doc) (k k' : String) (v : Val) (h : k' ≠ k) :
    getField (setField d k v) k' = getField d k' := by
  induction d with
  | nil => simp [setField, getField, Ne.symm h]
  | cons p rest ih =>
    by_cases hp : p.1 = k
    · subst hp
      simp [setField, getField, Ne.symm h, h]
    · by_cases hp' : p.1 = k'
      · simp [setField, getField, hp, hp', h]
      · simp [setField, getField, hp, hp', ih]

lemma delField_of_not_has (d : Doc) (k : String) (h : getField d k = none) :
    delField d k = d := by
  induction d with
  | nil => simp [delField]
  | cons p rest ih =>
    simp only [getField] at h
    by_cases hp : p.1 = k
    · simp [hp] at h
    · simp only [hp, if_false] at h
      simp [delField, hp, ih h]

lemma keyLtb_le {a b : Option Int} (h : keyLtb a b = true) : keyLEb a b = true := by
  cases a <;> cases b <;> simp_all [keyLtb, keyLEb] <;> omega

lemma foldl_pickLatest_mem (xs : List Doc) (x : Doc) :
    xs.foldl pickLatest x ∈ x :: xs := by
  induction xs generalizing x with
  | nil => simp
  | cons y ys ih =>
    simp only [List.foldl_cons]
    by_cases hc : keyLEb (tsKey x) (tsKey y) = true
    · have hxy : pickLatest x y = y := by simp [pickLatest, hc]
      rw [hxy]
      have h := ih y
      rw [List.mem_cons] at h
      rcases h with h | h
      · rw [h]
        simp
      · exact List.mem_cons_of_mem _ (List.mem_cons_of_mem _ h)
    · have hxy : pickLatest x y = x := by simp [pickLatest, hc]
      rw [hxy]
      have h := ih x
      rw [List.mem_cons] at h
      rcases h with h | h
      · rw [h]
        simp
      · exact List.mem_cons_of_mem _ (List.mem_cons_of_mem _ h)

lemma foldl_pickLatest_getLast (xs : List Doc) (x : Doc)
    (h : List.Chain (fun a b => keyLtb (tsKey a) (tsKey b) = true) x xs) :
    xs.foldl pickLatest x = (x :: xs).getLast (List.cons_ne_nil x xs) := by
  induction xs generalizing x with
  | nil => rfl
  | cons y ys ih =>
    cases h with
    | cons hxy hrest =>
      have hle : keyLEb (tsKey x) (tsKey y) = true := keyLtb_le hxy
      simp only [List.foldl_cons]
      have hpick : pickLatest x y = y := by simp [pickLatest, hle]
      rw [hpick, ih y hrest, List.getLast_cons (List.cons_ne_nil y ys)]

/-! ## Claim C2 -/

/-- Claim C2: for every text scored by the Sentiment Scorer, given the
normalized 3-way distribution `(negative, neutral, positive)` produced by
the model (components nonnegative, summing to 1 — hence each in [0, 1]),
the returned scalar score equals positive minus negative and lies in
[-1, 1]. -/
theorem score_bounded_C2 (p : ℚ × ℚ × ℚ)
    (hneg : 0 ≤ p.1) (hneu : 0 ≤ p.2.1) (hpos : 0 ≤ p.2.2)
    (hsum : p.1 + p.2.1 + p.2.2 = 1) :
    (analyze_text_sentiment p).sentiment_score = p.2.2 - p.1 ∧
    -1 ≤ (analyze_text_sentiment p).sentiment_score ∧
    (analyze_text_sentiment p).sentiment_score ≤ 1 ∧
    0 ≤ p.2.2 ∧ p.2.2 ≤ 1 ∧ 0 ≤ p.1 ∧ p.1 ≤ 1 := by
  have hs : (analyze_text_sentiment p).sentiment_score = p.2.2 - p.1 := rfl
  exact ⟨rfl, by rw [hs]; linarith, by rw [hs]; linarith, hpos,
    by linarith, hneg, by linarith⟩

/-- Witness for C2 at the concrete distribution (1/10, 2/10, 7/10). -/
theorem score_bounded_C2_witness :
    (0 : ℚ) ≤ 1/10 ∧ (0 : ℚ) ≤ 2/10 ∧ (0 : ℚ) ≤ 7/10 ∧
      ((1:ℚ)/10 + 2/10 + 7/10 = 1) ∧
      (analyze_text_sentiment (1/10, 2/10, 7/10)).sentiment_score = 7/10 - 1/10 ∧
      -1 ≤ (analyze_text_sentiment (1/10, 2/10, 7/10)).sentiment_score ∧
      (analyze_text_sentiment (1/10, 2/10, 7/10)).sentiment_score ≤ 1 := by
  have h := score_bounded_C2 (1/10, 2/10, 7/10)
    (by norm_num) (by norm_num) (by norm_num) (by norm_num)
  exact ⟨by norm_num, by norm_num, by norm_num, by norm_num, h.1, h.2.1, h.2.2.1⟩

/-! ## Claim C5 -/

/-- Claim C5 counterexample: `store_market_data` stamps
`data["timestamp"] = datetime.utcnow()` unconditionally, so a
caller-supplied timestamp (here the instant 5) is NOT left as supplied —
the stored record carries the server stamp 7 instead. -/
theorem insert_stamp_C5_counterexample :
    getField ((store_market_data [] [("timestamp", .vtime 5), ("price", .vnum 1)] 7).2)
        "timestamp" = some (.vtime 7) ∧
    Val.vtime 7 ≠ Val.vtime 5 := by
  refine ⟨rfl, fun h => ?_⟩
  injection h with h
  omega

/-- Claim C5 (amended): every Store Gateway insert stamps the server-side
capture/storage timestamp unconditionally — overwriting a caller-supplied
value rather than leaving it as supplied — and leaves every other field of
the inserted record unchanged (`store_sentiment` and `record_trade` build
the record themselves, always with the server timestamp). -/
theorem insert_stamp_C5_amended (coll : List Doc) (data : Doc) (now : Int)
    (ncoll items : List Doc) (scoll : List SRecord) (coin text : String) (score : ℚ)
    (tcoll : List Trade) (u c a : String) (am pr : ℚ) :
    (getField ((store_market_data coll data now).2) "timestamp" = some (.vtime now) ∧
      ∀ k, k ≠ "timestamp" →
        getField ((store_market_data coll data now).2) k = getField data k) ∧
    ((store_news ncoll items now).2 =
        items.map (fun item => setField item "stored_at" (.vtime now)) ∧
      ∀ item ∈ items,
        getField (setField item "stored_at" (.vtime now)) "stored_at" = some (.vtime now) ∧
        ∀ k, k ≠ "stored_at" →
          getField (setField item "stored_at" (.vtime now)) k = getField item k) ∧
    (store_sentiment scoll coin text score now).2.timestamp = now ∧
    (record_trade tcoll u c a am pr now).2.timestamp = now := by
  refine ⟨⟨getField_setField_self data "timestamp" (.vtime now),
      fun k hk => getField_setField_ne data "timestamp" k (.vtime now) hk⟩,
    ⟨?_, fun item _ => ⟨getField_setField_self item "stored_at" (.vtime now),
      fun k hk => getField_setField_ne item "stored_at" k (.vtime now) hk⟩⟩,
    rfl, rfl⟩
  unfold store_news
  by_cases h : items.length > 0
  · simp [h]
  · have h0 : items = [] := List.eq_nil_of_length_eq_zero (by omega)
    subst h0
    simp

/-- Witness for the amended C5 at concrete records. -/
theorem insert_stamp_C5_amended_witness :
    getField ((store_market_data [] [("price", .vnum 3)] 7).2) "timestamp"
        = some (.vtime 7) ∧
    getField ((store_market_data [] [("price", .vnum 3)] 7).2) "price"
        = getField [("price", .vnum 3)] "price" ∧
    (store_news [] [[("title", .vstr "t")]] 7).2 =
        [[("title", .vstr "t"), ("stored_at", .vtime 7)]] ∧
    (store_sentiment [] "BTC" "txt" 1 7).2.timestamp = 7 := by
  have h := insert_stamp_C5_amended [] [("price", .vnum 3)] 7
    [] [[("title", .vstr "t")]] [] "BTC" "txt" 1 [] "u" "c" "a" 1 1
  exact ⟨h.1.1, h.1.2 "price" (by decide), h.2.1.1, h.2.2.1⟩

/-! ## Claim C9 -/

/-- Claim C9: no stored entity is ever mutated after creation — every Store
Gateway write appends freshly built records to the end of its collection
(leaving all previously inserted records in place), and every reader
returns the collection state unchanged. -/
theorem append_only_C9 :
    (∀ (coll : List Doc) (data : Doc) (now : Int),
      (store_market_data coll data now).1 =
        coll ++ [setField data "timestamp" (.vtime now)]) ∧
    (∀ (coll items : List Doc) (now : Int),
      (store_news coll items now).1 =
        coll ++ items.map (fun item => setField item "stored_at" (.vtime now))) ∧
    (∀ (coll : List SRecord) (coin text : String) (score : ℚ) (now : Int),
      (store_sentiment coll coin text score now).1 =
        coll ++ [⟨coin, text, some score, none, now⟩]) ∧
    (∀ (coll : List Trade) (u c a : String) (am pr : ℚ) (now : Int),
      (record_trade coll u c a am pr now).1 = coll ++ [⟨u, c, a, am, pr, now⟩]) ∧
    (∀ coll : List Doc, (get_latest_market_data coll).1 = coll) ∧
    (∀ (coll : List Doc) (limit : Nat), (get_recent_news coll limit).1 = coll) ∧
    (∀ (coll : List SRecord) (coin : String) (limit : Nat),
      (get_sentiment_history coll coin limit).1 = coll) ∧
    (∀ (coll : List Trade) (uid : Option String) (limit : Nat),
      (get_trade_history coll uid limit).1 = coll) := by
  refine ⟨fun coll data now => rfl, fun coll items now => ?_,
    fun _ _ _ _ _ => rfl, fun _ _ _ _ _ _ _ => rfl,
    fun _ => rfl, fun _ _ => rfl, fun _ _ _ => rfl, fun _ _ _ => rfl⟩
  unfold store_news
  by_cases h : items.length > 0
  · simp [h]
  · have h0 : items = [] := List.eq_nil_of_length_eq_zero (by omega)
    subst h0
    simp

/-! ## Claims C3 and C10 (market-data cache hits) -/

lemma cleanup_eq_delField (d : Doc) :
    (if hasField d "_id" then delField d "_id" else d) = delField d "_id" := by
  by_cases h : hasField d "_id"
  · simp [h]
  · rw [if_neg h]
    cases hg : getField d "_id" with
    | none => exact (delField_of_not_has d "_id" hg).symm
    | some v => exact absurd (by simp [hasField, hg]) h

lemma get_market_data_cache_hit (x : Doc) (xs : List Doc) (s : String) (l : Int)
    (a : Nat → TransportResult) (n : Int) (h2 : ∀ d ∈ x :: xs, d ≠ []) :
    get_market_data s l true a n (x :: xs) =
      (.ok (delField (xs.foldl pickLatest x) "_id"), x :: xs, false) := by
  have hne : xs.foldl pickLatest x ≠ [] := h2 _ (foldl_pickLatest_mem xs x)
  have hempty : (xs.foldl pickLatest x).isEmpty = false := by
    cases hfold : xs.foldl pickLatest x with
    | nil => exact absurd hfold hne
    | cons _ _ => rfl
  unfold get_market_data
  simp only [get_latest_market_data, if_true, hempty, Bool.false_eq_true, if_false,
    cleanup_eq_delField]

/-- Claim C3: a `GET /market-data` request with `use_cache=true` against a
store holding at least one (non-empty) snapshot, with stored timestamps
strictly increasing in insertion order, returns the most recently stored
snapshot verbatim minus the internal `_id` field, does not invoke the
provider (flag `false`), and does not write to the store (collection
returned unchanged). -/
theorem market_cache_C3 (store : List Doc) (symbols : String) (limit : Int)
    (attempts : Nat → TransportResult) (now : Int)
    (h1 : store ≠ []) (h2 : ∀ d ∈ store, d ≠ [])
    (h3 : List.Chain' (fun a b => keyLtb (tsKey a) (tsKey b) = true) store) :
    get_market_data symbols limit true attempts now store =
      (.ok (delField (store.getLast h1) "_id"), store, false) := by
  cases store with
  | nil => exact absurd rfl h1
  | cons x xs =>
    rw [get_market_data_cache_hit x xs symbols limit attempts now h2]
    have h3' : List.Chain (fun a b => keyLtb (tsKey a) (tsKey b) = true) x xs := h3
    rw [foldl_pickLatest_getLast xs x h3']

/-- Witness for C3 on a concrete two-snapshot store. -/
theorem market_cache_C3_witness :
    get_market_data "BTC,ETH" 10 true (fun _ => .failure "provider down") 9
        [[("timestamp", .vtime 1), ("_id", .vnum 0), ("price", .vnum 5)],
         [("timestamp", .vtime 2), ("_id", .vnum 1), ("price", .vnum 6)]] =
      (.ok [("timestamp", .vtime 2), ("price", .vnum 6)],
       [[("timestamp", .vtime 1), ("_id", .vnum 0), ("price", .vnum 5)],
        [("timestamp", .vtime 2), ("_id", .vnum 1), ("price", .vnum 6)]],
       false) := by
  rw [market_cache_C3
    [[("timestamp", .vtime 1), ("_id", .vnum 0), ("price", .vnum 5)],
     [("timestamp", .vtime 2), ("_id", .vnum 1), ("price", .vnum 6)]]
    "BTC,ETH" 10 (fun _ => .failure "provider down") 9 (by simp)
    (by
      intro d hd
      simp only [List.mem_cons, List.not_mem_nil, or_false] at hd
      rcases hd with h | h <;> subst h <;> simp)
    (by exact List.Chain.cons rfl List.Chain.nil)]
  rfl

/-- Claim C10 (implicit): two `GET /market-data` requests with
`use_cache=true` against the same non-empty store return identical results
even when they differ in `symbols`, `limit`, the provider's behaviour and
the clock: the cache-hit path consults none of them. -/
theorem market_cache_uniform_C10 (store : List Doc) (s1 s2 : String) (l1 l2 : Int)
    (a1 a2 : Nat → TransportResult) (n1 n2 : Int)
    (h1 : store ≠ []) (h2 : ∀ d ∈ store, d ≠ []) :
    get_market_data s1 l1 true a1 n1 store = get_market_data s2 l2 true a2 n2 store := by
  cases store with
  | nil => exact absurd rfl h1
  | cons x xs =>
    rw [get_market_data_cache_hit x xs s1 l1 a1 n1 h2,
      get_market_data_cache_hit x xs s2 l2 a2 n2 h2]

/-- Witness for C10: requests for different symbols/limits coincide on a
concrete cached store. -/
theorem market_cache_uniform_C10_witness :
    get_market_data "BTC" 10 true (fun _ => .failure "a") 1
        [[("timestamp", .vtime 3), ("data", .vdoc [])]] =
      get_market_data "ETH,DOGE" 99 true (fun _ => .success []) 2
        [[("timestamp", .vtime 3), ("data", .vdoc [])]] :=
  market_cache_uniform_C10 [[("timestamp", .vtime 3), ("data", .vdoc [])]]
    "BTC" "ETH,DOGE" 10 99 _ _ 1 2 (by simp)
    (by
      intro d hd
      simp only [List.mem_cons, List.not_mem_nil, or_false] at hd
      subst hd
      simp)

/-! ## Claim C6 (provider client errors) -/

/-- Claim C6 counterexample: the uniform upstream error does NOT carry the
endpoint — two fetches of different endpoints failing with the same
underlying message produce identical payloads, and the payload text does not
contain the endpoint. -/
theorem provider_error_C6_counterexample :
    fetch_from_coinmarketcap "cryptocurrency/quotes/latest" [] (fun _ => .failure "boom")
        = .error ⟨500, "Error fetching data from CoinMarketCap: boom"⟩ ∧
    fetch_from_coinmarketcap "cryptocurrency/news" [] (fun _ => .failure "boom")
        = .error ⟨500, "Error fetching data from CoinMarketCap: boom"⟩ ∧
    strContains "Error fetching data from CoinMarketCap: boom" "cryptocurrency/news"
        = false ∧
    ("cryptocurrency/quotes/latest" : String) ≠ "cryptocurrency/news" :=
  ⟨rfl, rfl, by decide, by decide⟩

/-- Claim C6 (amended): on any transport-level failure (connection error or
non-2xx status) the fetch fails with the single uniform 500 error whose
detail is the fixed prefix plus the underlying error message — the endpoint
is not added by the client itself — and the request is never retried: the
result depends only on the first attempt. -/
theorem provider_error_C6_amended (endpoint : String) (params : Doc)
    (attempts : Nat → TransportResult) (e : String)
    (hfail : attempts 0 = .failure e) :
    fetch_from_coinmarketcap endpoint params attempts =
      .error ⟨500, "Error fetching data from CoinMarketCap: " ++ e⟩ ∧
    ∀ a2 : Nat → TransportResult, a2 0 = attempts 0 →
      fetch_from_coinmarketcap endpoint params a2 =
        fetch_from_coinmarketcap endpoint params attempts := by
  constructor
  · unfold fetch_from_coinmarketcap
    rw [hfail]
  · intro a2 h0
    unfold fetch_from_coinmarketcap
    rw [h0]

/-- Witness for the amended C6 at a concrete failing transport. -/
theorem provider_error_C6_amended_witness :
    ((fun _ : Nat => TransportResult.failure "conn error") 0 = .failure "conn error") ∧
    fetch_from_coinmarketcap "global-metrics/quotes/latest" []
        (fun _ => .failure "conn error")
      = .error ⟨500, "Error fetching data from CoinMarketCap: conn error"⟩ :=
  ⟨rfl, (provider_error_C6_amended "global-metrics/quotes/latest" [] _ "conn error" rfl).1⟩

/-! ## Claim C8 (trade history) -/

/-- Claim C8 counterexample: with the empty string supplied as user id the
truthiness check `if user_id:` drops the filter, so a record of a different
user is returned. -/
theorem trade_history_C8_counterexample :
    ((get_trade_history [⟨"alice", "BTC", "buy", 1, 10, 5⟩] (some "") 20).2).map
        (fun t => t.user_id) = ["alice"] ∧
    ("alice" : String) ≠ "" :=
  ⟨rfl, by decide⟩

/-- Claim C8 (amended): for every trade-history read with a NON-EMPTY user id
supplied, the result contains only records of that user, is ordered by
descending timestamp, and has length at most the requested limit
(default 20). -/
theorem trade_history_C8_amended (coll : List Trade) (uid : String) (limit : Nat)
    (huid : uid ≠ "") :
    (∀ t ∈ (get_trade_history coll (some uid) limit).2, t.user_id = uid) ∧
    List.Sorted tradeDesc (get_trade_history coll (some uid) limit).2 ∧
    (get_trade_history coll (some uid) limit).2.length ≤ limit := by
  have hq : (get_trade_history coll (some uid) limit).2 =
      (List.insertionSort tradeDesc (coll.filter (fun t => t.user_id == uid))).take limit := by
    unfold get_trade_history
    simp [huid]
  rw [hq]
  refine ⟨?_, ?_, ?_⟩
  · intro t ht
    have h1 : t ∈ List.insertionSort tradeDesc (coll.filter (fun t => t.user_id == uid)) :=
      List.take_subset _ _ ht
    have h2 : t ∈ coll.filter (fun t => t.user_id == uid) :=
      (List.perm_insertionSort tradeDesc _).mem_iff.mp h1
    exact eq_of_beq (List.mem_filter.mp h2).2
  · exact List.Pairwise.sublist (List.take_sublist _ _)
      (List.sorted_insertionSort tradeDesc _)
  · exact List.length_take_le _ _

/-- Witness for the amended C8 on a concrete two-user collection. -/
theorem trade_history_C8_amended_witness :
    ("alice" : String) ≠ "" ∧
    (∀ t ∈ (get_trade_history
        [⟨"alice", "BTC", "buy", 1, 10, 5⟩, ⟨"bob", "ETH", "sell", 2, 20, 7⟩]
        (some "alice") 20).2, t.user_id = "alice") ∧
    (get_trade_history
        [⟨"alice", "BTC", "buy", 1, 10, 5⟩, ⟨"bob", "ETH", "sell", 2, 20, 7⟩]
        (some "alice") 20).2.length ≤ 20 := by
  have h := trade_history_C8_amended
    [⟨"alice", "BTC", "buy", 1, 10, 5⟩, ⟨"bob", "ETH", "sell", 2, 20, 7⟩]
    "alice" 20 (by decide)
  exact ⟨by decide, h.1, h.2.2⟩

/-! ## Claim C4 (news fallback on provider failure) -/

lemma store_news_fst (coll items : List Doc) (now : Int) :
    (store_news coll items now).1 = coll ++ (store_news coll items now).2 := by
  unfold store_news
  by_cases h : items.length > 0
  · simp [h]
  · have h0 : items = [] := List.eq_nil_of_length_eq_zero (by omega)
    subst h0
    simp

lemma store_news_snd (coll items : List Doc) (now : Int) :
    (store_news coll items now).2 =
      items.map (fun item => setField item "stored_at" (.vtime now)) := by
  unfold store_news
  by_cases h : items.length > 0 <;> simp [h]

lemma newsTryBody_fail (coins : Option String) (limit : Nat)
    (attempts : Nat → TransportResult) (e : String) (hfail : attempts 0 = .failure e) :
    newsTryBody coins limit attempts =
      .error ("Error fetching data from CoinMarketCap: " ++ e) := by
  unfold newsTryBody fetch_from_coinmarketcap
  rw [hfail]

lemma getField_simulated_related (coin : String) (now : Int) (i : Nat) :
    getField (simulated_news_item coin now i) "related_coins" =
      some (.vlist [.vdoc [("symbol", .vstr coin)]]) := rfl

lemma getField_simulated_pub (coin : String) (now : Int) (i : Nat) :
    getField (simulated_news_item coin now i) "published_at" =
      some (.vtime (now - i)) := rfl

lemma fallback_news_length (coins : Option String) (limit : Nat) (now : Int) :
    (fallback_news coins limit now).length = limit := by
  simp [fallback_news]

/-- Claim C4: when the provider call of `GET /crypto-news` fails (after a
cache miss — `use_cache=false` or nothing cached), the endpoint returns
exactly `limit` synthetic articles — coins assigned round-robin through the
requested coin list (default BTC,ETH,XRP,LTC,ADA) — with strictly descending
published timestamps, persists exactly those articles to the store, and
surfaces no error (the response is `.ok`). -/
theorem news_fallback_C4 (coins : Option String) (limit : Nat) (use_cache : Bool)
    (attempts : Nat → TransportResult) (now nowStore : Int) (store : List Doc) (e : String)
    (hmiss : use_cache = false ∨ (get_recent_news store limit).2 = [])
    (hfail : attempts 0 = .failure e) :
    get_crypto_news coins limit use_cache attempts now nowStore store =
      (.ok ⟨(store_news store (fallback_news coins limit now) nowStore).2⟩,
        store ++ (store_news store (fallback_news coins limit now) nowStore).2) ∧
    (store_news store (fallback_news coins limit now) nowStore).2.length = limit ∧
    (∀ i, ∀ hi : i < (store_news store (fallback_news coins limit now) nowStore).2.length,
      getField (((store_news store (fallback_news coins limit now) nowStore).2).get ⟨i, hi⟩)
          "related_coins" =
        some (.vlist [.vdoc [("symbol",
          .vstr ((coinsToInclude coins)[i % (coinsToInclude coins).length]!))]]) ∧
      getField (((store_news store (fallback_news coins limit now) nowStore).2).get ⟨i, hi⟩)
          "published_at" = some (.vtime (now - i))) ∧
    (∀ i j, ∀ hi : i < (store_news store (fallback_news coins limit now) nowStore).2.length,
      ∀ hj : j < (store_news store (fallback_news coins limit now) nowStore).2.length,
      i < j → ∀ ti tj,
      getField (((store_news store (fallback_news coins limit now) nowStore).2).get ⟨i, hi⟩)
          "published_at" = some (.vtime ti) →
      getField (((store_news store (fallback_news coins limit now) nowStore).2).get ⟨j, hj⟩)
          "published_at" = some (.vtime tj) →
      tj < ti) := by
  have hsnd := store_news_snd store (fallback_news coins limit now) nowStore
  have hlen : (store_news store (fallback_news coins limit now) nowStore).2.length = limit := by
    rw [hsnd, List.length_map, fallback_news_length]
  have hpoint : ∀ i, ∀ hi : i < (store_news store (fallback_news coins limit now) nowStore).2.length,
      getField (((store_news store (fallback_news coins limit now) nowStore).2).get ⟨i, hi⟩)
          "related_coins" =
        some (.vlist [.vdoc [("symbol",
          .vstr ((coinsToInclude coins)[i % (coinsToInclude coins).length]!))]]) ∧
      getField (((store_news store (fallback_news coins limit now) nowStore).2).get ⟨i, hi⟩)
          "published_at" = some (.vtime (now - i)) := by
    intro i hi
    have hi' : i < limit := hlen ▸ hi
    have hget : ((store_news store (fallback_news coins limit now) nowStore).2).get ⟨i, hi⟩ =
        setField (simulated_news_item ((coinsToInclude coins)[i % (coinsToInclude coins).length]!)
          now i) "stored_at" (.vtime nowStore) := by
      rw [List.get_eq_getElem]
      simp only [hsnd]
      simp only [fallback_news, List.getElem_map, List.getElem_range]
    rw [hget]
    constructor
    · rw [getField_setField_ne _ _ _ _ (by decide)]
      exact getField_simulated_related _ now i
    · rw [getField_setField_ne _ _ _ _ (by decide)]
      exact getField_simulated_pub _ now i
  refine ⟨?_, hlen, hpoint, ?_⟩
  · have hbody := newsTryBody_fail coins limit attempts e hfail
    unfold get_crypto_news
    rcases hmiss with hm | hm
    · subst hm
      simp only [Bool.false_eq_true, if_false, hbody, store_news_fst]
    · simp only [hm, List.isEmpty_nil, if_true, ite_self, hbody, store_news_fst]
  · intro i j hi hj hij ti tj hti htj
    have h1 := (hpoint i hi).2
    have h2 := (hpoint j hj).2
    rw [h1] at hti
    rw [h2] at htj
    simp only [Option.some.injEq, Val.vtime.injEq] at hti htj
    omega

/-- Witness for C4: a concrete failing provider with an empty cache yields
two synthetic BTC articles. -/
theorem news_fallback_C4_witness :
    ((fun _ : Nat => TransportResult.failure "boom") 0 = .failure "boom") ∧
    ((get_recent_news ([] : List Doc) 2).2 = []) ∧
    get_crypto_news (some "BTC") 2 true (fun _ => .failure "boom") 100 50 [] =
      (.ok ⟨(store_news [] (fallback_news (some "BTC") 2 100) 50).2⟩,
        [] ++ (store_news [] (fallback_news (some "BTC") 2 100) 50).2) ∧
    (store_news [] (fallback_news (some "BTC") 2 100) 50).2.length = 2 := by
  have h := news_fallback_C4 (some "BTC") 2 true (fun _ => .failure "boom") 100 50 [] "boom"
    (Or.inr rfl) rfl
  exact ⟨rfl, rfl, h.1, h.2.1⟩

/-! ## Claim C7 (per-coin error isolation in the news-sentiment endpoint) -/

lemma processArticles_fst_indep (m : String → ℚ × ℚ × ℚ) (c : String) (n : Int)
    (l : List Val) (acc : List ScoredArticle) (st st' : List SRecord) :
    (processArticles m c n l acc st).1 = (processArticles m c n l acc st').1 := by
  induction l generalizing acc st st' with
  | nil => rfl
  | cons a rest ih =>
    cases a with
    | vstr s => rfl
    | vnum q => rfl
    | vtime t => rfl
    | vnull => rfl
    | vlist l2 => rfl
    | vdoc article =>
      cases hat : articleTextD article with
      | error e => simp [processArticles, hat]
      | ok text =>
        simp only [processArticles, hat]
        exact ih _ _ _

lemma processCoin_fst_indep (f : String → Nat → Except String Val)
    (m : String → ℚ × ℚ × ℚ) (c : String) (lim : Nat) (n : Int) (st st' : List SRecord) :
    (processCoin f m c lim n st).1 = (processCoin f m c lim n st').1 := by
  cases hf : f c lim with
  | error e => simp [processCoin, hf]
  | ok body =>
    cases body with
    | vstr s => simp [processCoin, hf]
    | vnum q => simp [processCoin, hf]
    | vtime t => simp [processCoin, hf]
    | vnull => simp [processCoin, hf]
    | vlist l2 => simp [processCoin, hf]
    | vdoc news_data =>
      cases hn : (getField news_data "news").getD (.vlist []) with
      | vstr s => simp [processCoin, hf, hn]
      | vnum q => simp [processCoin, hf, hn]
      | vtime t => simp [processCoin, hf, hn]
      | vnull => simp [processCoin, hf, hn]
      | vdoc d2 => simp [processCoin, hf, hn]
      | vlist articles =>
        simp only [processCoin, hf, hn]
        have hfst := processArticles_fst_indep m c n articles [] st st'
        rcases h1 : processArticles m c n articles [] st with ⟨r1, s1⟩
        rcases h2 : processArticles m c n articles [] st' with ⟨r2, s2⟩
        rw [h1, h2] at hfst
        simp only at hfst
        subst hfst
        cases r1 with
        | error e => rfl
        | ok cr => by_cases hl : cr.length > 0 <;> simp [hl]

lemma dictLookup_insert_self {α : Type} (d : List (String × α)) (k : String) (v : α) :
    dictLookup (dictInsert d k v) k = some v := by
  induction d with
  | nil => simp [dictInsert, dictLookup]
  | cons p rest ih =>
    by_cases h : p.1 = k
    · simp [dictInsert, dictLookup, h]
    · simp [dictInsert, dictLookup, h, ih]

lemma dictLookup_insert_ne {α : Type} (d : List (String × α)) (k k' : String) (v : α)
    (h : k' ≠ k) : dictLookup (dictInsert d k v) k' = dictLookup d k' := by
  induction d with
  | nil => simp [dictInsert, dictLookup, Ne.symm h]
  | cons p rest ih =>
    by_cases hp : p.1 = k
    · subst hp
      simp [dictInsert, dictLookup, Ne.symm h, h]
    · by_cases hp' : p.1 = k'
      · simp [dictInsert, dictLookup, hp, hp', h]
      · simp [dictInsert, dictLookup, hp, hp', ih]

lemma analyze_fold_lookup (f : String → Nat → Except String Val)
    (m : String → ℚ × ℚ × ℚ) (lim : Nat) (n : Int) :
    ∀ (cs : List String) (d0 : List (String × CoinResult)) (st0 : List SRecord) (c : String),
    dictLookup ((cs.foldl (fun acc coin =>
        (dictInsert acc.1 coin (processCoin f m coin lim n acc.2).1,
         (processCoin f m coin lim n acc.2).2)) (d0, st0)).1) c =
      if c ∈ cs then some ((processCoin f m c lim n []).1) else dictLookup d0 c := by
  intro cs
  induction cs with
  | nil =>
    intro d0 st0 c
    simp
  | cons c0 rest ih =>
    intro d0 st0 c
    simp only [List.foldl_cons]
    rw [ih]
    by_cases hc : c ∈ rest
    · simp [hc]
    · simp only [hc, if_false]
      by_cases hcc : c = c0
      · subst hcc
        rw [dictLookup_insert_self]
        have hind := processCoin_fst_indep f m c lim n st0 []
        simp [List.mem_cons, hind]
      · rw [dictLookup_insert_ne _ _ _ _ hcc]
        simp [List.mem_cons, hcc, hc]

/-- Claim C7: in `GET /analyze-news-sentiment`, a failure while processing
one coin (e.g. an unreachable news handler) yields for that coin's key an
object with an `error` field and empty `articles`, while every requested
coin's entry equals its own independent per-coin processing result (so
other coins are still processed and reported, and the request as a whole
succeeds). -/
theorem sentiment_percoin_C7 (fetch : String → Nat → Except String Val)
    (modelOut : String → ℚ × ℚ × ℚ) (coins : String) (limit : Nat) (nowS : Int)
    (sstore : List SRecord) (c e : String)
    (hc : c ∈ parseCoinList coins) (hfail : fetch c limit = .error e) :
    dictLookup (analyze_news_sentiment fetch modelOut coins limit nowS sstore).1 c =
      some ⟨[], none, none, some ("Failed to analyze news sentiment: " ++ e)⟩ ∧
    ∀ c' ∈ parseCoinList coins,
      dictLookup (analyze_news_sentiment fetch modelOut coins limit nowS sstore).1 c' =
        some ((processCoin fetch modelOut c' limit nowS []).1) := by
  have hmain : ∀ c' ∈ parseCoinList coins,
      dictLookup (analyze_news_sentiment fetch modelOut coins limit nowS sstore).1 c' =
        some ((processCoin fetch modelOut c' limit nowS []).1) := by
    intro c' hc'
    unfold analyze_news_sentiment
    rw [analyze_fold_lookup fetch modelOut limit nowS (parseCoinList coins) [] sstore c']
    simp [hc']
  refine ⟨?_, hmain⟩
  rw [hmain c hc]
  simp [processCoin, hfail]

/-- Witness for C7: the news handler is unreachable for ETH but fine for
BTC; the ETH key carries the error object. -/
theorem sentiment_percoin_C7_witness :
    dictLookup (analyze_news_sentiment
        (fun c _ => if c = "ETH" then .error "conn refused"
                    else .ok (.vdoc [("news", .vlist [])]))
        (fun _ => (1, 0, 0)) "BTC,ETH" 5 0 []).1 "ETH"
      = some ⟨[], none, none, some ("Failed to analyze news sentiment: " ++ "conn refused")⟩ :=
  (sentiment_percoin_C7
    (fun c _ => if c = "ETH" then .error "conn refused" else .ok (.vdoc [("news", .vlist [])]))
    (fun _ => (1, 0, 0)) "BTC,ETH" 5 0 [] "ETH" "conn refused" (by decide) rfl).1

/-! ## Claim C1 (threshold labels at every labelling site) -/

lemma label_iffs (s : ℚ) :
    ((if s > 0.2 then "positive" else if s < -0.2 then "negative" else "neutral")
        = "positive" ↔ s > 0.2) ∧
    ((if s > 0.2 then "positive" else if s < -0.2 then "negative" else "neutral")
        = "negative" ↔ s < -0.2) ∧
    ((if s > 0.2 then "positive" else if s < -0.2 then "negative" else "neutral")
        = "neutral" ↔ (¬ s > 0.2 ∧ ¬ s < -0.2)) := by
  have hlt : ((-0.2 : ℚ)) < 0.2 := by norm_num
  by_cases h1 : s > 0.2
  · rw [if_pos h1]
    exact ⟨⟨fun _ => h1, fun _ => rfl⟩,
      ⟨fun h => absurd h (by decide), fun h => absurd h1 (by linarith)⟩,
      ⟨fun h => absurd h (by decide), fun h => absurd h1 h.1⟩⟩
  · by_cases h2 : s < -0.2
    · rw [if_neg h1, if_pos h2]
      exact ⟨⟨fun h => absurd h (by decide), fun h => absurd h h1⟩,
        ⟨fun _ => h2, fun _ => rfl⟩,
        ⟨fun h => absurd h (by decide), fun h => absurd h2 h.2⟩⟩
    · rw [if_neg h1, if_neg h2]
      exact ⟨⟨fun h => absurd h (by decide), fun h => absurd h h1⟩,
        ⟨fun h => absurd h (by decide), fun h => absurd h h2⟩,
        ⟨fun _ => ⟨h1, h2⟩, fun _ => rfl⟩⟩

lemma processCoin_overall (f : String → Nat → Except String Val)
    (m : String → ℚ × ℚ × ℚ) (c : String) (lim : Nat) (n : Int) (st : List SRecord) :
    ((processCoin f m c lim n st).1.average_sentiment = none ∧
      (processCoin f m c lim n st).1.overall_sentiment = none) ∨
    ∃ s : ℚ, (processCoin f m c lim n st).1.average_sentiment = some s ∧
      (processCoin f m c lim n st).1.overall_sentiment =
        some (if s > 0.2 then "positive" else if s < -0.2 then "negative" else "neutral") := by
  cases hf : f c lim with
  | error e => exact Or.inl (by simp [processCoin, hf])
  | ok body =>
    cases body with
    | vstr s => exact Or.inl (by simp [processCoin, hf])
    | vnum q => exact Or.inl (by simp [processCoin, hf])
    | vtime t => exact Or.inl (by simp [processCoin, hf])
    | vnull => exact Or.inl (by simp [processCoin, hf])
    | vlist l2 => exact Or.inl (by simp [processCoin, hf])
    | vdoc news_data =>
      cases hn : (getField news_data "news").getD (.vlist []) with
      | vstr s => exact Or.inl (by simp [processCoin, hf, hn])
      | vnum q => exact Or.inl (by simp [processCoin, hf, hn])
      | vtime t => exact Or.inl (by simp [processCoin, hf, hn])
      | vnull => exact Or.inl (by simp [processCoin, hf, hn])
      | vdoc d2 => exact Or.inl (by simp [processCoin, hf, hn])
      | vlist articles =>
        simp only [processCoin, hf, hn]
        rcases h1 : processArticles m c n articles [] st with ⟨r1, s1⟩
        cases r1 with
        | error e => exact Or.inl ⟨rfl, rfl⟩
        | ok cr =>
          by_cases hl : cr.length > 0
          · refine Or.inr ⟨(cr.map (fun it => it.sentiment_score)).sum / (cr.length : ℚ),
              ?_, ?_⟩ <;> simp [hl]
          · refine Or.inr ⟨0, ?_, ?_⟩
            · simp [hl]
            · simp only [hl, if_false]
              have e1 : ¬ ((0 : ℚ) > 0.2) := by norm_num
              have e2 : ¬ ((0 : ℚ) < -0.2) := by norm_num
              simp [e1, e2]

/-- Claim C1: every sentiment label the system produces obeys the fixed
thresholds — label is "positive" iff score > 0.2, "negative" iff
score < -0.2, "neutral" otherwise — (a) for every freshly scored text in
the Scorer, (b) for every stored record lacking a label that the history
endpoint backfills on read (records with a label are left untouched, and
the endpoint maps the backfill over the fetched history), and (c) for the
per-coin overall label of the news-sentiment endpoint relative to its
reported average. -/
theorem threshold_labels_C1 :
    (∀ p : ℚ × ℚ × ℚ,
      ((analyze_text_sentiment p).sentiment_label = "positive" ↔
        (analyze_text_sentiment p).sentiment_score > 0.2) ∧
      ((analyze_text_sentiment p).sentiment_label = "negative" ↔
        (analyze_text_sentiment p).sentiment_score < -0.2) ∧
      ((analyze_text_sentiment p).sentiment_label = "neutral" ↔
        (¬ (analyze_text_sentiment p).sentiment_score > 0.2 ∧
          ¬ (analyze_text_sentiment p).sentiment_score < -0.2))) ∧
    (∀ item : SRecord,
      (∀ l, item.sentiment_label = some l → backfillLabel item = item) ∧
      (item.sentiment_label = none →
        (((backfillLabel item).sentiment_label = some "positive" ↔
            item.sentiment_score.getD 0 > 0.2) ∧
          ((backfillLabel item).sentiment_label = some "negative" ↔
            item.sentiment_score.getD 0 < -0.2) ∧
          ((backfillLabel item).sentiment_label = some "neutral" ↔
            (¬ item.sentiment_score.getD 0 > 0.2 ∧
              ¬ item.sentiment_score.getD 0 < -0.2))))) ∧
    (∀ (scoll : List SRecord) (coin : String) (days : Nat),
      (get_coin_sentiment scoll coin days).2 =
        ((get_sentiment_history scoll (pyUpper coin) (days * 10)).2).map backfillLabel) ∧
    (∀ (fetch : String → Nat → Except String Val) (modelOut : String → ℚ × ℚ × ℚ)
        (coin : String) (limit : Nat) (nowS : Int) (st : List SRecord) (avg : ℚ),
      (processCoin fetch modelOut coin limit nowS st).1.average_sentiment = some avg →
        (((processCoin fetch modelOut coin limit nowS st).1.overall_sentiment =
            some "positive" ↔ avg > 0.2) ∧
          ((processCoin fetch modelOut coin limit nowS st).1.overall_sentiment =
            some "negative" ↔ avg < -0.2) ∧
          ((processCoin fetch modelOut coin limit nowS st).1.overall_sentiment =
            some "neutral" ↔ (¬ avg > 0.2 ∧ ¬ avg < -0.2)))) := by
  refine ⟨?_, ?_, ?_, ?_⟩
  · intro p
    have hlab : (analyze_text_sentiment p).sentiment_label =
        (if (analyze_text_sentiment p).sentiment_score > 0.2 then "positive"
          else if (analyze_text_sentiment p).sentiment_score < -0.2 then "negative"
          else "neutral") := rfl
    rw [hlab]
    exact label_iffs _
  · intro item
    constructor
    · intro l hl
      simp [backfillLabel, hl]
    · intro hn
      have hb : (backfillLabel item).sentiment_label =
          some (if item.sentiment_score.getD 0 > 0.2 then "positive"
            else if item.sentiment_score.getD 0 < -0.2 then "negative"
            else "neutral") := by
        simp [backfillLabel, hn]
      rw [hb]
      simp only [Option.some.injEq]
      exact label_iffs _
  · intro scoll coin days
    unfold get_coin_sentiment
    by_cases h : (get_sentiment_history scoll (pyUpper coin) (days * 10)).2 = [] <;>
      simp [h]
  · intro fetch modelOut coin limit nowS st avg havg
    rcases processCoin_overall fetch modelOut coin limit nowS st with ⟨ha, _⟩ | ⟨s, ha, ho⟩
    · rw [ha] at havg
      exact absurd havg (by simp)
    · rw [ha] at havg
      simp only [Option.some.injEq] at havg
      subst havg
      rw [ho]
      simp only [Option.some.injEq]
      exact label_iffs _

/-- Witness for C1: a fresh score of 1 is labelled positive, and a stored
record lacking a label with score 1 is backfilled positive. -/
theorem threshold_labels_C1_witness :
    (analyze_text_sentiment (0, 0, 1)).sentiment_label = "positive" ∧
    (backfillLabel ⟨"BTC", "good news", some 1, none, 0⟩).sentiment_label
      = some "positive" := by
  constructor
  · refine (threshold_labels_C1.1 (0, 0, 1)).1.mpr ?_
    show ((1 : ℚ) - 0 > 0.2)
    norm_num
  · refine ((threshold_labels_C1.2.1 ⟨"BTC", "good news", some 1, none, 0⟩).2 rfl).1.mpr ?_
    simp only [Option.getD_some]
    norm_num
